import Mathlib

/-!
Verification development for the lianjia rental-listing scraper.

The definitions below are a shallow embedding of the Python sources:
  - `src/scraper/spider.py`   (`LianjiaSpider.parse_listing`,
    `LianjiaSpider.scrape_page_range`, `LianjiaSpider.save_to_csv`)
  - `scripts/run_scraper.py`  (`main`, the CLI argument handling)
  - `src/utils/data_processor.py` (`clean_data`, `load_data`)

Machine integers are modelled as `Int`/`Nat`, Python floats as exact
rationals (every float produced by the pipeline comes from a finite
decimal string), Python dicts holding listing fields as association
lists in insertion order, and pandas `DataFrame`s as a column-name list
plus rows of optional cells (`none` models `NaN`).
-/

/-- A scalar cell value of a listing record: either text or a number
(Python `int` and `float` are both modelled as exact rationals; field
extraction only ever produces integers and finite decimals). -/
inductive Value where
  | str (s : String)
  | num (q : Rat)
deriving DecidableEq, Repr

/-! ## String and number utilities shared by the embedded functions -/

/-- Digit characters interpreted with value, `digitsVal ['1','2'] = 12`. -/
def digitsVal (cs : List Char) : Nat :=
  cs.foldl (fun a c => 10 * a + (c.toNat - Char.toNat (Char.ofNat 48))) 0

/-- The digit body accepted by Python `int(...)`: one or more ASCII digits,
with single underscores allowed only between digits. -/
def intBody : List Char → Bool
  | [] => true
  | [c] => c.isDigit
  | c :: d :: rest =>
    if c.isDigit then intBody (d :: rest)
    else if c = Char.ofNat 95 then d.isDigit && intBody (d :: rest)
    else false

/-- Python `int(text)`: strips surrounding whitespace, accepts an optional
sign followed by a non-empty digit body (underscore digit grouping
included), and raises `ValueError` otherwise (modelled as `none`).
Unicode digits are out of the modelled alphabet. -/
def pythonInt (s : String) : Option Int :=
  let cs := ((s.toList.dropWhile Char.isWhitespace).reverse.dropWhile
    Char.isWhitespace).reverse
  let core : List Char → Option Nat := fun ds =>
    if ds.isEmpty then none
    else if ds.headD ' ' |>.isDigit then
      if intBody ds then some (digitsVal (ds.filter Char.isDigit)) else none
    else none
  match cs with
  | '+' :: rest => (core rest).map Int.ofNat
  | '-' :: rest => (core rest).map (fun n => -(n : Int))
  | rest => (core rest).map Int.ofNat

/-- Value of a decimal literal `digits` or `digits.digits` (the strings
matched by the area regular expression), as an exact rational. -/
def parseDecimal (cs : List Char) : Rat :=
  let ip := cs.takeWhile (fun c => c ≠ '.')
  let fp := cs.drop (ip.length + 1)
  (digitsVal ip : Rat) + (digitsVal fp : Rat) / ((10 : Rat) ^ fp.length)

/-- Whether `needle` occurs as a contiguous substring of `hay`
(Python `needle in hay` on strings). -/
def hasSub (hay needle : List Char) : Bool :=
  needle.isPrefixOf hay ||
    match hay with
    | [] => false
    | _ :: t => hasSub t needle

/-- Python `str.strip()`: remove leading and trailing whitespace. -/
def stripText (cs : List Char) : List Char :=
  ((cs.dropWhile Char.isWhitespace).reverse.dropWhile Char.isWhitespace).reverse

/-! ## Crawl Controller: `LianjiaSpider.scrape_page_range`

The page fetcher (`scrape_page`) is a parameter: it maps a page number to
the list of records parsed from that page (an empty list models every
no-data/failure outcome, exactly as in the source).  The model records,
besides the aggregated listings and the skipped pages, the list of pages
actually fetched, in fetch order. -/

/-- Result of one range crawl: collected records, skipped page numbers,
and the pages that were actually fetched, each in order. -/
structure CrawlResult (α : Type) where
  listings : List α
  skipped : List Int
  fetched : List Int
deriving Repr

/-- The fetch loop of `scrape_page_range`: walks the remaining page
numbers carrying the consecutive-empty-page counter.  An empty fetch
increments the counter and records the page as skipped; reaching three
consecutive empties breaks out of the loop; a non-empty fetch resets the
counter and appends the page records. -/
def crawlGo (fetch : Int → List α) : List Int → Nat → CrawlResult α
  | [], _ => ⟨[], [], []⟩
  | p :: ps, consec =>
    let ls := fetch p
    if ls.isEmpty then
      if consec + 1 ≥ 3 then ⟨[], [p], [p]⟩
      else
        let r := crawlGo fetch ps (consec + 1)
        ⟨r.listings, p :: r.skipped, p :: r.fetched⟩
    else
      let r := crawlGo fetch ps 0
      ⟨ls ++ r.listings, r.skipped, p :: r.fetched⟩

/-- Python `range(s, e + 1)` over machine integers. -/
def intRange (s e : Int) : List Int :=
  (List.range (e + 1 - s).toNat).map (fun k => s + k)

/-- Model of `LianjiaSpider.scrape_page_range(start_page, end_page)`: iterate the
fetch loop over `range(start_page, end_page + 1)` with the
consecutive-empty counter starting at zero. -/
def scrape_page_range (fetch : Int → List α) (startPage endPage : Int) :
    CrawlResult α :=
  crawlGo fetch (intRange startPage endPage) 0

/-- End of `scrape_page_range`: the return value is the aggregated listing
list, and the skipped pages are appended to the skipped-pages log
(`save_skipped_pages`; the `if skipped_pages` guard is equivalent to
appending an empty list). -/
def scrape_page_range_run (fetch : Int → List α) (startPage endPage : Int)
    (log : List Int) : List α × List Int :=
  let r := scrape_page_range fetch startPage endPage
  (r.listings, log ++ r.skipped)

/-! ## CLI argument handling: `main` in `scripts/run_scraper.py` -/

/-- Outcome of the argument-handling prefix of `main`: enter the
interactive prompt, print an error and return, or proceed to crawl the
range `[s, e]`. -/
inductive CliOutcome where
  | interactive
  | errorExit
  | run (s e : Int)
deriving DecidableEq, Repr

/-- The argument handling of `main` (`args` is `sys.argv[1:]`).  No
arguments: interactive mode.  One argument: parsed as the end page with
start fixed at 1, no further validation.  Two arguments: both parsed,
rejected when `start > end or start < 1`.  Three or more arguments: none
of the branches fire and the defaults `start = 1, end = 10` survive. -/
def cliMain (args : List String) : CliOutcome :=
  match args with
  | [] => .interactive
  | [a] =>
    match pythonInt a with
    | none => .errorExit
    | some e => .run 1 e
  | [a, b] =>
    match pythonInt a, pythonInt b with
    | some s, some e => if s > e || s < 1 then .errorExit else .run s e
    | _, _ => .errorExit
  | _ => .run 1 10

/-! ## Field Extractor: `LianjiaSpider.parse_listing`

One listing's markup node is modelled by the texts BeautifulSoup would
hand the extractor: each `find`/`find_all` result becomes an optional
component holding the `get_text(strip=True)` strings of the elements the
source actually reads.  The regular-expression searches of the source are
embedded as dedicated leftmost-match functions below. -/

/-- The `p.content__list--item--des` element: the texts of its inline
`a` links, its own flattened text, and the text of its hidden `span`. -/
structure DesElem where
  links : List String
  text : String
  hide : Option String
deriving Repr

/-- The `p.content__list--item--brand` element: the text of its
`span.brand` child when present, and its own flattened text. -/
structure BrandElem where
  span : Option String
  text : String
deriving Repr

/-- One listing's markup node, reduced to the components
`parse_listing` reads: title element text, description element, the `i`
tag texts of the bottom element, the brand element, and the price
element (whose payload is the optional `em` child's text). -/
structure ItemDiv where
  title : Option String
  des : Option DesElem
  bottomTags : Option (List String)
  brand : Option BrandElem
  price : Option (Option String)
deriving Repr

/-- Match of the area pattern (digits, optional dot and more digits,
then the character before the area-unit symbol) anchored at the start of
`cs`; returns the numeric group.  The optional dot needs no further
backtracking: a failed tail after the dot cannot be rescued because the
dot itself is not the unit symbol. -/
def matchAreaAt (cs : List Char) : Option (List Char) :=
  let d1 := cs.takeWhile Char.isDigit
  if d1.isEmpty then none
  else
    match cs.drop d1.length with
    | '.' :: r2 =>
      let d2 := r2.takeWhile Char.isDigit
      match r2.drop d2.length with
      | c :: _ => if c = '㎡' then some (d1 ++ '.' :: d2) else none
      | [] => none
    | c :: _ => if c = '㎡' then some d1 else none
    | [] => none

/-- Leftmost match of the area pattern over the whole text
(`re.search` of the numeric-prefix-before-unit-symbol pattern). -/
def searchArea : List Char → Option (List Char)
  | [] => none
  | c :: t =>
    match matchAreaAt (c :: t) with
    | some m => some m
    | none => searchArea t

/-- Leftmost match of the slash-delimited-token pattern: captures the
text between the first slash and the next slash (the lazy inner group
makes the very next slash close the match); if the first slash is never
followed by another, no later start can match either. -/
def searchSlashToken : List Char → Option (List Char)
  | [] => none
  | '/' :: t =>
    if t.any (fun c => c = '/') then some (t.takeWhile (fun c => c ≠ '/'))
    else none
  | _ :: t => searchSlashToken t

/-- Match of the count-then-unit layout pattern (digits 室 digits 厅
digits 卫) anchored at the start of `cs`. -/
def matchLayoutAt (cs : List Char) : Option (Nat × Nat × Nat) :=
  let d1 := cs.takeWhile Char.isDigit
  if d1.isEmpty then none
  else
    match cs.drop d1.length with
    | '室' :: r1 =>
      let d2 := r1.takeWhile Char.isDigit
      if d2.isEmpty then none
      else
        match r1.drop d2.length with
        | '厅' :: r2 =>
          let d3 := r2.takeWhile Char.isDigit
          if d3.isEmpty then none
          else
            match r2.drop d3.length with
            | '卫' :: _ => some (digitsVal d1, digitsVal d2, digitsVal d3)
            | _ => none
        | _ => none
    | _ => none

/-- Leftmost match of the layout pattern over the whole text. -/
def searchLayout : List Char → Option (Nat × Nat × Nat)
  | [] => none
  | c :: t =>
    match matchLayoutAt (c :: t) with
    | some m => some m
    | none => searchLayout t

/-- Word characters for the floor pattern: ASCII alphanumerics and
underscore plus CJK unified ideographs (the alphabet the hidden floor
text draws from; Python's word class on these texts). -/
def isWordChar (c : Char) : Bool :=
  c.isAlphanum || c = Char.ofNat 95 || (0x4E00 ≤ c.toNat && c.toNat ≤ 0x9FFF)

/-- Leftmost occurrence of the parenthesized floor-count suffix: an
ASCII opening paren, digits, the 层 unit, a closing paren; returns the
digit value.  This is the lazy `.*?` scan of the floor pattern. -/
def searchFloorParen : List Char → Option Nat
  | [] => none
  | '(' :: t =>
    let d := t.takeWhile Char.isDigit
    if d.isEmpty then searchFloorParen t
    else
      match t.drop d.length with
      | '层' :: ')' :: _ => some (digitsVal d)
      | _ => searchFloorParen t
  | _ :: t => searchFloorParen t

/-- Greedy-with-backtracking word group of the floor pattern: try the
label length `k` (characters taken as the word group), demanding the
楼层 literal right after it and a parenthesized floor count further on;
on failure retry with a shorter group. -/
def floorDescend (cs : List Char) : Nat → Option (List Char × Nat)
  | 0 => none
  | k + 1 =>
    (match cs.drop (k + 1) with
      | '楼' :: '层' :: rest =>
        (searchFloorParen rest).map (fun n => (cs.take (k + 1), n))
      | _ => none).orElse
    (fun _ => floorDescend cs k)

/-- Match of the floor pattern (word group, 楼层 label, lazily reached
parenthesized total-floor count) anchored at the start of `cs`. -/
def matchFloorAt (cs : List Char) : Option (List Char × Nat) :=
  let w := cs.takeWhile isWordChar
  if w.isEmpty then none else floorDescend cs w.length

/-- Leftmost match of the floor pattern over the whole hidden text. -/
def searchFloor : List Char → Option (List Char × Nat)
  | [] => none
  | c :: t =>
    match matchFloorAt (c :: t) with
    | some m => some m
    | none => searchFloor t

/-- Rent type inferred from the title by substring match: 整租 (whole),
合租 (shared), otherwise 其他. -/
def rentTypeOf (t : String) : String :=
  if hasSub t.toList "整租".toList then "整租"
  else if hasSub t.toList "合租".toList then "合租"
  else "其他"

/-- The title section of `parse_listing`: when the title element exists,
set `title` and the derived `rent_type`. -/
def titleFields (d : ItemDiv) : List (String × Value) :=
  match d.title with
  | none => []
  | some t => [("title", .str t), ("rent_type", .str (rentTypeOf t))]

/-- The description section of `parse_listing`: district hierarchy from
the first three links (all three or nothing), then area, orientation,
layout counts from the flattened text, then floor data from the hidden
span. -/
def desFields : Option DesElem → List (String × Value)
  | none => []
  | some de =>
    (if de.links.length ≥ 3 then
      [("district", .str (de.links.getD 0 "")),
       ("sub_district", .str (de.links.getD 1 "")),
       ("community", .str (de.links.getD 2 ""))]
     else []) ++
    (match searchArea de.text.toList with
     | some m => [("area", .num (parseDecimal m))]
     | none => []) ++
    (match searchSlashToken de.text.toList with
     | some o => [("orientation", .str (String.mk (stripText o)))]
     | none => []) ++
    (match searchLayout de.text.toList with
     | some (b, l, ba) =>
       [("bedrooms", .num b), ("living_rooms", .num l),
        ("bathrooms", .num ba)]
     | none => []) ++
    (match de.hide with
     | none => []
     | some h =>
       match searchFloor h.toList with
       | some (lvl, tf) =>
         [("floor_level", .str (String.mk lvl)), ("total_floors", .num tf)]
       | none => [])

/-- The tag section of `parse_listing`: empty tag texts are dropped and
the rest joined with the bar delimiter. -/
def tagFields : Option (List String) → List (String × Value)
  | none => []
  | some ts =>
    [("tags", .str (String.intercalate "|" (ts.filter (fun s => s ≠ ""))))]

/-- The platform section of `parse_listing`: brand span text when
present, otherwise the brand element's own text. -/
def brandFields : Option BrandElem → List (String × Value)
  | none => []
  | some br =>
    [("platform", .str (match br.span with | some s => s | none => br.text))]

/-- The price section of `parse_listing`: requires both the price span
and its `em` child; a text that `int(...)` rejects yields price 0
(the `ValueError` branch). -/
def priceFields : Option (Option String) → List (String × Value)
  | none => []
  | some none => []
  | some (some ptext) =>
    [("price", .num (match pythonInt ptext with | some n => (n : Rat) | none => 0))]

/-- Model of `LianjiaSpider.parse_listing`: builds the listing dict field by
field, every lookup guarded on element presence.  No operation in the
body can raise, so the catch-all except branch (which would return
`None`) is unreachable; the model therefore always returns the record,
as an association list in dict insertion order. -/
def parse_listing (d : ItemDiv) : List (String × Value) :=
  titleFields d ++ desFields d.des ++ tagFields d.bottomTags ++
    brandFields d.brand ++ priceFields d.price

/-! ## Tabular data: pandas `DataFrame`, CSV persistence

A record (Python dict) is an association list of field name and value in
insertion order; a `DataFrame` is a column-name list plus rows of
optional cells, `none` modelling `NaN`.  The CSV file is modelled at
cell granularity: a header of column names and rows of cell strings —
quoting of separators and its inverse on read are transparent at this
granularity and are not re-modelled. -/

/-- A listing record as handed to `pd.DataFrame`. -/
abbrev Record := List (String × Value)

/-- A pandas data frame: column names and rows of optional cells. -/
structure DataFrame where
  cols : List String
  rows : List (List (Option Value))
deriving DecidableEq, Repr

/-- A CSV file at cell granularity: header and rows of cell strings. -/
structure CsvFile where
  header : List String
  rows : List (List String)
deriving DecidableEq, Repr

/-- Keep the first occurrence of each element (the key order of
`pd.DataFrame` over dicts, the column union order of `pd.concat`, and
the row selection of `drop_duplicates`). -/
def dedupKeepFirst [DecidableEq α] (l : List α) : List α :=
  go [] l
where
  /-- Walk the list keeping elements not seen before. -/
  go (seen : List α) : List α → List α
    | [] => []
    | x :: xs => if x ∈ seen then go seen xs else x :: go (x :: seen) xs

/-- Model of `pd.DataFrame(listings)`: columns are the record keys in order of
first appearance; each row holds the record's value per column, `NaN`
(`none`) where the record lacks the key. -/
def pdDataFrame (listings : List Record) : DataFrame :=
  let cols := dedupKeepFirst (listings.flatMap (fun r => r.map Prod.fst))
  ⟨cols, listings.map (fun r => cols.map (fun c => r.lookup c))⟩

/-- Smallest positive power of ten the denominator divides, for decimal
rendering; `none` when no power up to `10 ^ 30` works (unreachable for
pipeline values, which all come from finite decimal strings). -/
def pow10Exp (d : Nat) : Option Nat :=
  (List.range 31).find? (fun k => k ≠ 0 && 10 ^ k % d = 0)

/-- Textual form of a numeric cell as `to_csv` writes it: integers
without a point, other pipeline rationals as exact finite decimals.
The int-to-float widening pandas applies to integer columns holding
`NaN` (writing `5.0` for `5`) is abstracted away: every claim about
persisted content explicitly ignores numeric type widening. -/
def renderRat (q : Rat) : String :=
  if q.den = 1 then toString q.num
  else
    match pow10Exp q.den with
    | some k =>
      let scaled := q.num.natAbs * (10 ^ k / q.den)
      let frac := toString (scaled % 10 ^ k)
      (if q.num < 0 then "-" else "") ++ toString (scaled / 10 ^ k) ++ "." ++
        ("".pushn '0' (k - frac.length) ++ frac)
    | none => toString q.num

/-- One cell as `to_csv` writes it: `NaN` becomes the empty cell. -/
def renderCell : Option Value → String
  | none => ""
  | some (.str s) => s
  | some (.num q) => renderRat q

/-- Model of `df.to_csv(filepath, index=False, encoding=utf-8-sig)`: header row of
column names, then one row of rendered cells per data row. -/
def writeCsv (df : DataFrame) : CsvFile :=
  ⟨df.cols, df.rows.map (fun r => r.map renderCell)⟩

/-- The default missing-value sentinels of `pd.read_csv`: cells equal to
any of these read back as `NaN`. -/
def naStrings : List String :=
  ["", "#N/A", "#N/A N/A", "#NA", "-1.#IND", "-1.#QNAN", "-NaN", "-nan",
   "1.#IND", "1.#QNAN", "<NA>", "N/A", "NA", "NULL", "NaN", "None",
   "n/a", "nan", "null"]

/-- Whether `pd.read_csv` parses the cell text as a number: optional
sign, digits with an optional decimal point (at least one digit), and an
optional exponent part. -/
def isNumericText (cs : List Char) : Bool :=
  let body := match cs with
    | '+' :: r => r
    | '-' :: r => r
    | r => r
  let d1 := body.takeWhile Char.isDigit
  let expOk : List Char → Bool := fun r =>
    match r with
    | [] => true
    | 'e' :: r1 | 'E' :: r1 =>
      let r2 := match r1 with
        | '+' :: r2 => r2
        | '-' :: r2 => r2
        | r2 => r2
      let d := r2.takeWhile Char.isDigit
      !d.isEmpty && (r2.drop d.length).isEmpty
    | _ => false
  match body.drop d1.length with
  | '.' :: r2 =>
    let d2 := r2.takeWhile Char.isDigit
    (!d1.isEmpty || !d2.isEmpty) && expOk (r2.drop d2.length)
  | r1 => !d1.isEmpty && expOk r1

/-- Numeric value of a cell text accepted by `isNumericText` (0 on other
inputs, which never reach it). -/
def parseNumericText (cs : List Char) : Rat :=
  match cs with
  | '-' :: r => -(parseBody r)
  | '+' :: r => parseBody r
  | r => parseBody r
where
  /-- Mantissa and optional exponent. -/
  parseBody (cs : List Char) : Rat :=
    let mant := cs.takeWhile (fun c => c ≠ 'e' && c ≠ 'E')
    let expPart := cs.drop (mant.length + 1)
    let m := parseDecimal mant
    match expPart with
    | [] => m
    | '-' :: ds => m / (10 : Rat) ^ digitsVal ds
    | '+' :: ds => m * (10 : Rat) ^ digitsVal ds
    | ds => m * (10 : Rat) ^ digitsVal ds

/-- A CSV row whose rendered line is empty (no separator written):
`read_csv` skips such blank lines. -/
def blankRow (r : List String) : Bool :=
  r.isEmpty || r = [""]

/-- Whether a column reads back with a numeric dtype: every kept cell is
a missing-value sentinel or numeric text. -/
def colNumeric (kept : List (List String)) (j : Nat) : Bool :=
  kept.all (fun r =>
    naStrings.contains (r.getD j "") || isNumericText (r.getD j "").toList)

/-- One cell as `read_csv` reads it, given its column's dtype. -/
def readCell (numeric : Bool) (s : String) : Option Value :=
  if naStrings.contains s then none
  else if numeric then some (.num (parseNumericText s.toList))
  else some (.str s)

/-- Model of `pd.read_csv(filepath, encoding=utf-8-sig)`: fails (raises, modelled
as `none`) when the file has no columns; skips blank lines; types each
column numeric when all its kept cells parse as numbers, keeping cell
texts otherwise; missing-value sentinels read back as `NaN`.  Short rows
pad with `NaN`. -/
def readCsv (f : CsvFile) : Option DataFrame :=
  if f.header.isEmpty then none
  else
    let kept := f.rows.filter (fun r => !blankRow r)
    some ⟨f.header,
      kept.map (fun r =>
        (List.range f.header.length).map (fun j =>
          readCell (colNumeric kept j) (r.getD j "")))⟩

/-- Row reindexed to the union columns of `pd.concat`: cells looked up
by column name, `NaN` for columns the frame lacks. -/
def reindexRow (oldCols cols : List String) (r : List (Option Value)) :
    List (Option Value) :=
  cols.map (fun c =>
    if oldCols.contains c then r.getD (oldCols.indexOf c) none else none)

/-- Model of `pd.concat([df1, df2], ignore_index=True)`: union of the columns in
order of appearance, first frame's rows before the second's. -/
def pdConcat (df1 df2 : DataFrame) : DataFrame :=
  let cols := dedupKeepFirst (df1.cols ++ df2.cols)
  ⟨cols, df1.rows.map (reindexRow df1.cols cols) ++
    df2.rows.map (reindexRow df2.cols cols)⟩

/-- The filesystem as `save_to_csv` sees it: the destination file's
content (if the file exists) and whether the output directory exists. -/
structure FS where
  file : Option CsvFile
  dirExists : Bool
deriving DecidableEq, Repr

/-- Model of `LianjiaSpider.save_to_csv(listings, filename=None, append)` for the
default destination: an empty listing list returns `None` at once
(before the directory is created or the file touched); otherwise the
directory is created, and in append mode with an existing file the old
rows are read and the new frame concatenated after them — a failing read
falls back to a fresh write.  Returns the written path and the new
filesystem. -/
def save_to_csv (listings : List Record) (append : Bool) (fs : FS) :
    Option String × FS :=
  if listings.isEmpty then (none, fs)
  else
    let df := pdDataFrame listings
    let finalDf :=
      if append then
        match fs.file with
        | some f =>
          match readCsv f with
          | some existing => pdConcat existing df
          | none => df
        | none => df
      else df
    (some "data/beijing_rental_data.csv", ⟨some (writeCsv finalDf), true⟩)

/-! ## `clean_data` in `src/utils/data_processor.py` -/

/-- The pandas comparison `cell > 0` restricted to the numeric cells the
pipeline produces (`NaN` compares false; a non-numeric cell would raise
in pandas and is outside the modelled inputs — see the hypotheses of the
`clean_data` theorem). -/
def cellPos : Option Value → Bool
  | some (.num q) => decide (0 < q)
  | _ => false

/-- Model of `clean_data(df)`: unchanged when the frame is empty; otherwise drop
fully duplicated rows (keeping first occurrences), drop rows missing
price or area, and keep rows with positive price and area. -/
def clean_data (df : DataFrame) : DataFrame :=
  if df.rows.isEmpty || df.cols.isEmpty then df
  else
    let pi := df.cols.indexOf "price"
    let ai := df.cols.indexOf "area"
    let r1 := dedupKeepFirst df.rows
    let r2 := r1.filter (fun r => (r.getD pi none).isSome && (r.getD ai none).isSome)
    let r3 := r2.filter (fun r => cellPos (r.getD pi none) && cellPos (r.getD ai none))
    ⟨df.cols, r3⟩

/-- Cell of a frame at row `i`, column `j` (`none` out of range, like a
missing cell). -/
def cellAt (df : DataFrame) (i j : Nat) : Option Value :=
  (df.rows.getD i []).getD j none

/-! ## Theorems -/

/-- A non-empty list has `isEmpty = false`. -/
theorem isEmpty_false_of_ne_nil {α : Type} (l : List α) (h : l ≠ []) :
    l.isEmpty = false := by
  cases l with
  | nil => exact absurd rfl h
  | cons a t => rfl

/-- C10: called with an empty listing sequence, `save_to_csv` returns
`None` immediately: the destination directory is not created, the
destination file is untouched, the filesystem is returned unchanged. -/
theorem save_to_csv_empty_noop (append : Bool) (fs : FS) :
    save_to_csv [] append fs = (none, fs) := rfl

/-- C4 counterexample: in the one-argument CLI form with argument `0`
the pair is start 1, end 0 with start > end, yet `main` does not reject
it: the outcome is a crawl of the range `[1, 0]`, not the error exit the
claim requires. -/
theorem cli_one_arg_counterexample :
    cliMain ["0"] = CliOutcome.run 1 0 ∧
    cliMain ["0"] ≠ CliOutcome.errorExit ∧ (1 : Int) > 0 := by
  refine ⟨by decide, by decide, by decide⟩

/-- C4 amended: the two-argument CLI form rejects `start > end` with a
printed error before any fetch; the one-argument form performs no such
validation — an end page below 1 simply yields a crawl over the empty
range, which fetches no page. -/
theorem cli_range_validation (a b : String) (s e : Int)
    (ha : pythonInt a = some s) (hb : pythonInt b = some e) :
    (s > e → cliMain [a, b] = CliOutcome.errorExit) ∧
    (e < 1 → cliMain [b] = CliOutcome.run 1 e ∧
      ∀ fetch : Int → List Unit, (scrape_page_range fetch 1 e).fetched = []) := by
  constructor
  · intro hse
    simp only [cliMain, ha, hb]
    rw [if_pos]
    simp [hse]
  · intro he
    constructor
    · simp [cliMain, hb]
    · intro fetch
      have hz : intRange 1 e = [] := by
        unfold intRange
        have h0 : (e + 1 - 1).toNat = 0 := by omega
        rw [h0]
        rfl
      simp [scrape_page_range, hz, crawlGo]

/-- C4 amended, witness at the arguments `"5"` and `"0"`. -/
theorem cli_range_validation_witness :
    (pythonInt "5" = some 5 ∧ pythonInt "0" = some 0) ∧
    ((5 : Int) > 0 → cliMain ["5", "0"] = CliOutcome.errorExit) ∧
    ((0 : Int) < 1 → cliMain ["0"] = CliOutcome.run 1 0 ∧
      ∀ fetch : Int → List Unit, (scrape_page_range fetch 1 0).fetched = []) :=
  ⟨⟨by decide, by decide⟩, cli_range_validation "5" "0" 5 0 (by decide) (by decide)⟩

/-- C1: with records on pages 1-5, nothing on pages 6-8 and records
again on 9-10, the crawl of `[1, 10]` visits exactly pages 1 through 8,
stopping at the third consecutive empty page; pages 9 and 10 are never
fetched and the skipped-pages list is `[6, 7, 8]`. -/
theorem crawl_gap_stop {α : Type} (fetch : Int → List α)
    (h15 : ∀ p : Int, 1 ≤ p → p ≤ 5 → fetch p ≠ [])
    (h68 : ∀ p : Int, 6 ≤ p → p ≤ 8 → fetch p = [])
    (_h910 : ∀ p : Int, 9 ≤ p → p ≤ 10 → fetch p ≠ []) :
    (scrape_page_range fetch 1 10).fetched = [1, 2, 3, 4, 5, 6, 7, 8] ∧
    (scrape_page_range fetch 1 10).skipped = [6, 7, 8] ∧
    9 ∉ (scrape_page_range fetch 1 10).fetched ∧
    10 ∉ (scrape_page_range fetch 1 10).fetched := by
  have f : ∀ p : Int, 1 ≤ p → p ≤ 5 → (fetch p).isEmpty = false :=
    fun p hp1 hp2 => isEmpty_false_of_ne_nil _ (h15 p hp1 hp2)
  have e : ∀ p : Int, 6 ≤ p → p ≤ 8 → (fetch p).isEmpty = true :=
    fun p hp1 hp2 => by rw [h68 p hp1 hp2]; rfl
  have f1 := f 1 (by norm_num) (by norm_num)
  have f2 := f 2 (by norm_num) (by norm_num)
  have f3 := f 3 (by norm_num) (by norm_num)
  have f4 := f 4 (by norm_num) (by norm_num)
  have f5 := f 5 (by norm_num) (by norm_num)
  have e6 := e 6 (by norm_num) (by norm_num)
  have e7 := e 7 (by norm_num) (by norm_num)
  have e8 := e 8 (by norm_num) (by norm_num)
  have hr : intRange 1 10 = [1, 2, 3, 4, 5, 6, 7, 8, 9, 10] := by decide
  unfold scrape_page_range
  rw [hr]
  simp [crawlGo, f1, f2, f3, f4, f5, e6, e7, e8]

/-- C1, witness: the simulated fetcher that is empty exactly on pages
6-8. -/
theorem crawl_gap_stop_witness :
    (∀ p : Int, 1 ≤ p → p ≤ 5 →
      (fun q : Int => if 6 ≤ q ∧ q ≤ 8 then ([] : List Int) else [q]) p ≠ []) ∧
    (∀ p : Int, 6 ≤ p → p ≤ 8 →
      (fun q : Int => if 6 ≤ q ∧ q ≤ 8 then ([] : List Int) else [q]) p = []) ∧
    (∀ p : Int, 9 ≤ p → p ≤ 10 →
      (fun q : Int => if 6 ≤ q ∧ q ≤ 8 then ([] : List Int) else [q]) p ≠ []) ∧
    ((scrape_page_range
        (fun q : Int => if 6 ≤ q ∧ q ≤ 8 then ([] : List Int) else [q])
        1 10).fetched = [1, 2, 3, 4, 5, 6, 7, 8] ∧
      (scrape_page_range
        (fun q : Int => if 6 ≤ q ∧ q ≤ 8 then ([] : List Int) else [q])
        1 10).skipped = [6, 7, 8] ∧
      9 ∉ (scrape_page_range
        (fun q : Int => if 6 ≤ q ∧ q ≤ 8 then ([] : List Int) else [q])
        1 10).fetched ∧
      10 ∉ (scrape_page_range
        (fun q : Int => if 6 ≤ q ∧ q ≤ 8 then ([] : List Int) else [q])
        1 10).fetched) := by
  have h1 : ∀ p : Int, 1 ≤ p → p ≤ 5 →
      (fun q : Int => if 6 ≤ q ∧ q ≤ 8 then ([] : List Int) else [q]) p ≠ [] := by
    intro p hp1 hp2
    simp only []
    rw [if_neg (by omega)]
    simp
  have h2 : ∀ p : Int, 6 ≤ p → p ≤ 8 →
      (fun q : Int => if 6 ≤ q ∧ q ≤ 8 then ([] : List Int) else [q]) p = [] := by
    intro p hp1 hp2
    simp only []
    rw [if_pos (by omega)]
  have h3 : ∀ p : Int, 9 ≤ p → p ≤ 10 →
      (fun q : Int => if 6 ≤ q ∧ q ≤ 8 then ([] : List Int) else [q]) p ≠ [] := by
    intro p hp1 hp2
    simp only []
    rw [if_neg (by omega)]
    simp
  exact ⟨h1, h2, h3, crawl_gap_stop _ h1 h2 h3⟩

/-- C6: with a fetcher that is non-empty on every page of `[1, 10]`, the
crawl fetches exactly pages 1 through 10 in increasing order, skips
nothing, and returns the ten page results concatenated in page order. -/
theorem crawl_full_range {α : Type} (fetch : Int → List α)
    (h : ∀ p : Int, 1 ≤ p → p ≤ 10 → fetch p ≠ []) :
    (scrape_page_range fetch 1 10).fetched =
      [1, 2, 3, 4, 5, 6, 7, 8, 9, 10] ∧
    (scrape_page_range fetch 1 10).skipped = [] ∧
    (scrape_page_range fetch 1 10).listings =
      fetch 1 ++ fetch 2 ++ fetch 3 ++ fetch 4 ++ fetch 5 ++ fetch 6 ++
        fetch 7 ++ fetch 8 ++ fetch 9 ++ fetch 10 := by
  have f : ∀ p : Int, 1 ≤ p → p ≤ 10 → (fetch p).isEmpty = false :=
    fun p hp1 hp2 => isEmpty_false_of_ne_nil _ (h p hp1 hp2)
  have f1 := f 1 (by norm_num) (by norm_num)
  have f2 := f 2 (by norm_num) (by norm_num)
  have f3 := f 3 (by norm_num) (by norm_num)
  have f4 := f 4 (by norm_num) (by norm_num)
  have f5 := f 5 (by norm_num) (by norm_num)
  have f6 := f 6 (by norm_num) (by norm_num)
  have f7 := f 7 (by norm_num) (by norm_num)
  have f8 := f 8 (by norm_num) (by norm_num)
  have f9 := f 9 (by norm_num) (by norm_num)
  have f10 := f 10 (by norm_num) (by norm_num)
  have hr : intRange 1 10 = [1, 2, 3, 4, 5, 6, 7, 8, 9, 10] := by decide
  unfold scrape_page_range
  rw [hr]
  simp [crawlGo, f1, f2, f3, f4, f5, f6, f7, f8, f9, f10]

/-- C6, witness: the fetcher returning one record per page. -/
theorem crawl_full_range_witness :
    (∀ p : Int, 1 ≤ p → p ≤ 10 → (fun q : Int => [q]) p ≠ []) ∧
    ((scrape_page_range (fun q : Int => [q]) 1 10).fetched =
        [1, 2, 3, 4, 5, 6, 7, 8, 9, 10] ∧
      (scrape_page_range (fun q : Int => [q]) 1 10).skipped = [] ∧
      (scrape_page_range (fun q : Int => [q]) 1 10).listings =
        [(1 : Int)] ++ [2] ++ [3] ++ [4] ++ [5] ++ [6] ++ [7] ++ [8] ++
          [9] ++ [10]) := by
  have h1 : ∀ p : Int, 1 ≤ p → p ≤ 10 → (fun q : Int => [q]) p ≠ [] := by
    intro p _ _
    simp
  exact ⟨h1, crawl_full_range _ h1⟩

/-- The fetch loop visits an initial segment of the remaining pages. -/
theorem crawlGo_fetched_initial_segment {α : Type} (fetch : Int → List α)
    (ps : List Int) (c : Nat) : (crawlGo fetch ps c).fetched <+: ps := by
  induction ps generalizing c with
  | nil => simp [crawlGo]
  | cons p ps ih =>
    simp only [crawlGo]
    by_cases hF : (fetch p).isEmpty
    · simp only [hF, if_true]
      by_cases hc : c + 1 ≥ 3
      · simp only [hc, if_pos]
        exact ⟨ps, rfl⟩
      · simp only [if_neg hc]
        obtain ⟨t, ht⟩ := ih (c + 1)
        exact ⟨t, by rw [List.cons_append, ht]⟩
    · simp only [hF, if_false, Bool.false_eq_true]
      obtain ⟨t, ht⟩ := ih 0
      exact ⟨t, by rw [List.cons_append, ht]⟩

/-- Whatever the consecutive-empty counter, the loop's skipped list is
exactly the visited pages whose fetch was empty, and its listing list is
the concatenation of the fetch results of the visited non-empty pages,
in page order. -/
theorem crawlGo_output {α : Type} (fetch : Int → List α)
    (ps : List Int) (c : Nat) :
    (crawlGo fetch ps c).skipped =
      (crawlGo fetch ps c).fetched.filter (fun p => (fetch p).isEmpty) ∧
    (crawlGo fetch ps c).listings =
      ((crawlGo fetch ps c).fetched.filter
        (fun p => !(fetch p).isEmpty)).flatMap fetch := by
  induction ps generalizing c with
  | nil => simp [crawlGo]
  | cons p ps ih =>
    simp only [crawlGo]
    by_cases hF : (fetch p).isEmpty
    · by_cases hc : c + 1 ≥ 3
      · simp [hF, hc]
      · obtain ⟨ihs, ihl⟩ := ih (c + 1)
        simp [hF, hc, ihs, ihl]
    · obtain ⟨ihs, ihl⟩ := ih 0
      simp only [Bool.not_eq_true] at hF
      simp [hF, ihs, ihl]

/-- C3: for every fetcher and range, the controller visits an initial
segment of the requested range (the whole range when it stops by range
end, a shorter one when it stops on the gap heuristic), returns the
aggregate of all records collected from the visited non-empty pages,
and appends to the skipped-pages log exactly the visited pages whose
fetch was empty — so both terminal states deliver the collected records
together with the skipped page numbers. -/
theorem crawl_output_complete {α : Type} (fetch : Int → List α)
    (s e : Int) (log : List Int) :
    (scrape_page_range fetch s e).fetched <+: intRange s e ∧
    (scrape_page_range_run fetch s e log).1 =
      ((scrape_page_range fetch s e).fetched.filter
        (fun p => !(fetch p).isEmpty)).flatMap fetch ∧
    (scrape_page_range_run fetch s e log).2 =
      log ++ (scrape_page_range fetch s e).fetched.filter
        (fun p => (fetch p).isEmpty) := by
  obtain ⟨hs, hl⟩ := crawlGo_output fetch (intRange s e) 0
  exact ⟨crawlGo_fetched_initial_segment fetch (intRange s e) 0,
    hl, by rw [scrape_page_range_run]; simp [scrape_page_range] at hs ⊢; rw [hs]⟩

/-- C5 counterexample: a fragment holding only a title element and a
price element does not come back with exactly the title and price fields
set — the extractor always derives `rent_type` from the title as well,
here to 整租, which is neither absent nor a default. -/
theorem parse_listing_title_price_counterexample :
    (parse_listing ⟨some "整租·测试", none, none, none,
        some (some "1200")⟩).map Prod.fst =
      ["title", "rent_type", "price"] ∧
    (parse_listing ⟨some "整租·测试", none, none, none,
        some (some "1200")⟩).map Prod.fst ≠ ["title", "price"] ∧
    (parse_listing ⟨some "整租·测试", none, none, none,
        some (some "1200")⟩).lookup "rent_type" = some (Value.str "整租") := by
  refine ⟨by decide, by decide, by decide⟩

/-- C5 amended: on a fragment with only a title element and a price
element (all other sub-elements absent) the extractor never raises and
returns a record with exactly three fields — the title, the rent type
derived from the title, and the price (0 when the price text is not a
valid integer); every other field is absent. -/
theorem parse_listing_title_price_amended (t p : String) :
    parse_listing ⟨some t, none, none, none, some (some p)⟩ =
      [("title", Value.str t), ("rent_type", Value.str (rentTypeOf t)),
       ("price", Value.num
         (match pythonInt p with | some n => (n : Rat) | none => 0))] ∧
    (parse_listing ⟨some t, none, none, none,
        some (some p)⟩).map Prod.fst = ["title", "rent_type", "price"] :=
  ⟨rfl, rfl⟩

/-- Looking a key up past an association-list block whose keys all
differ from it. -/
theorem lookup_extend (k : String) (l1 l2 : List (String × Value))
    (h : ∀ q ∈ l1, q.1 ≠ k) : (l1 ++ l2).lookup k = l2.lookup k := by
  induction l1 with
  | nil => rfl
  | cons a t ih =>
    have hk : (k == a.1) = false := by
      have := h a (by simp)
      simp [Ne.symm this]
    simp only [List.cons_append, List.lookup, hk]
    exact ih (fun q hq => h q (by simp [hq]))

/-- The title section never writes the price field. -/
theorem titleFields_keys (d : ItemDiv) :
    ∀ q ∈ titleFields d, q.1 ≠ "price" := by
  intro q hq
  unfold titleFields at hq
  split at hq <;> simp_all <;> rcases hq with rfl | rfl <;> simp

/-- The description section never writes the price field. -/
theorem desFields_keys (o : Option DesElem) :
    ∀ q ∈ desFields o, q.1 ≠ "price" := by
  intro q hq
  match o with
  | none => simp [desFields] at hq
  | some de =>
    simp only [desFields, List.mem_append] at hq
    rcases hq with ((((h | h) | h) | h) | h) <;> (repeat' split at h) <;>
      simp_all <;> aesop

/-- The tag section never writes the price field. -/
theorem tagFields_keys (o : Option (List String)) :
    ∀ q ∈ tagFields o, q.1 ≠ "price" := by
  intro q hq
  unfold tagFields at hq
  split at hq <;> simp_all

/-- The brand section never writes the price field. -/
theorem brandFields_keys (o : Option BrandElem) :
    ∀ q ∈ brandFields o, q.1 ≠ "price" := by
  intro q hq
  unfold brandFields at hq
  split at hq <;> simp_all

/-- C7: when the price span and its nested `em` element are present but
the text is not a valid integer, the extractor still returns the record
and its price field is 0 — the `ValueError` is caught, the listing is
not dropped. -/
theorem price_invalid_coerced_to_zero (d : ItemDiv) (ptext : String)
    (hp : d.price = some (some ptext)) (hbad : pythonInt ptext = none) :
    (parse_listing d).lookup "price" = some (Value.num 0) := by
  unfold parse_listing
  simp only [List.append_assoc]
  rw [lookup_extend _ _ _ (titleFields_keys d)]
  rw [lookup_extend _ _ _ (desFields_keys d.des)]
  rw [lookup_extend _ _ _ (tagFields_keys d.bottomTags)]
  rw [lookup_extend _ _ _ (brandFields_keys d.brand)]
  rw [hp]
  simp [priceFields, hbad, List.lookup]

/-- C7, witness: a fragment whose price text is 面议. -/
theorem price_invalid_coerced_to_zero_witness :
    (⟨none, none, none, none, some (some "面议")⟩ : ItemDiv).price =
      some (some "面议") ∧
    pythonInt "面议" = none ∧
    (parse_listing ⟨none, none, none, none,
        some (some "面议")⟩).lookup "price" = some (Value.num 0) :=
  ⟨rfl, by decide,
    price_invalid_coerced_to_zero ⟨none, none, none, none, some (some "面议")⟩
      "面议" rfl (by decide)⟩

/-- A cell that is either missing or numeric — the price/area cells the
pipeline produces (on any other cell the pandas comparison `> 0` would
raise rather than filter, so such frames are outside the model). -/
def numOrNone (o : Option Value) : Prop :=
  o = none ∨ ∃ q : Rat, o = some (Value.num q)

/-- The first-occurrence walk keeps a subsequence of its input. -/
theorem dedupKeepFirst_go_sublist {α : Type} [DecidableEq α]
    (l : List α) : ∀ seen : List α, (dedupKeepFirst.go seen l).Sublist l := by
  induction l with
  | nil => intro seen; simp [dedupKeepFirst.go]
  | cons x xs ih =>
    intro seen
    unfold dedupKeepFirst.go
    by_cases hx : x ∈ seen
    · simp only [if_pos hx]
      exact (ih seen).cons x
    · simp only [if_neg hx]
      exact (ih (x :: seen)).cons₂ x

/-- The `drop_duplicates` step keeps a subsequence of the rows. -/
theorem dedupKeepFirst_sublist {α : Type} [DecidableEq α] (l : List α) :
    (dedupKeepFirst l).Sublist l :=
  dedupKeepFirst_go_sublist l []

/-- What passing the positivity filter means for a cell. -/
theorem cellPos_spec (o : Option Value) (h : cellPos o = true) :
    ∃ q : Rat, o = some (Value.num q) ∧ 0 < q := by
  match o with
  | none => simp [cellPos] at h
  | some (Value.str s) => simp [cellPos] at h
  | some (Value.num q) =>
    refine ⟨q, rfl, ?_⟩
    simpa [cellPos] using h

/-- C9: on a frame with price and area columns (numeric or missing, as
the pipeline produces them), `clean_data` returns the same columns, a
subsequence of the original rows (rows are only removed, never altered
or added), and every surviving row carries a present price > 0 and a
present area > 0. -/
theorem clean_data_spec (df : DataFrame)
    (hp : "price" ∈ df.cols) (_ha : "area" ∈ df.cols)
    (_hcells : ∀ r ∈ df.rows,
      numOrNone (r.getD (df.cols.indexOf "price") none) ∧
      numOrNone (r.getD (df.cols.indexOf "area") none)) :
    (clean_data df).cols = df.cols ∧
    (clean_data df).rows.Sublist df.rows ∧
    ∀ r ∈ (clean_data df).rows,
      (∃ q : Rat, r.getD (df.cols.indexOf "price") none =
        some (Value.num q) ∧ 0 < q) ∧
      (∃ q : Rat, r.getD (df.cols.indexOf "area") none =
        some (Value.num q) ∧ 0 < q) := by
  by_cases hE : (df.rows.isEmpty || df.cols.isEmpty) = true
  · have hcols : df.cols.isEmpty = false :=
      isEmpty_false_of_ne_nil _ (fun hnil => by simp [hnil] at hp)
    have hrows : df.rows = [] := by
      rw [Bool.or_eq_true] at hE
      rcases hE with h | h
      · exact List.isEmpty_iff.mp h
      · rw [hcols] at h; exact absurd h (by simp)
    refine ⟨by simp [clean_data, hE], by simp [clean_data, hE], ?_⟩
    intro r hr
    rw [clean_data, if_pos hE, hrows] at hr
    simp at hr
  · have hclean : clean_data df =
        ⟨df.cols,
          ((dedupKeepFirst df.rows).filter (fun r =>
            (r.getD (df.cols.indexOf "price") none).isSome &&
            (r.getD (df.cols.indexOf "area") none).isSome)).filter (fun r =>
              cellPos (r.getD (df.cols.indexOf "price") none) &&
              cellPos (r.getD (df.cols.indexOf "area") none))⟩ := by
      rw [clean_data, if_neg (by simp [hE])]
    refine ⟨by rw [hclean], ?_, ?_⟩
    · rw [hclean]
      exact ((List.filter_sublist _).trans (List.filter_sublist _)).trans
        (dedupKeepFirst_sublist df.rows)
    · intro r hr
      rw [hclean] at hr
      have hpos := (List.mem_filter.mp hr).2
      rw [Bool.and_eq_true] at hpos
      exact ⟨cellPos_spec _ hpos.1, cellPos_spec _ hpos.2⟩

/-- C9, witness: a three-row frame with one valid row, one missing
price, one non-positive price. -/
theorem clean_data_spec_witness :
    ("price" ∈ (⟨["price", "area"],
        [[some (Value.num 5), some (Value.num 30)],
         [none, some (Value.num 2)],
         [some (Value.num 0), some (Value.num 1)]]⟩ : DataFrame).cols ∧
      "area" ∈ (⟨["price", "area"],
        [[some (Value.num 5), some (Value.num 30)],
         [none, some (Value.num 2)],
         [some (Value.num 0), some (Value.num 1)]]⟩ : DataFrame).cols) ∧
    ((clean_data ⟨["price", "area"],
        [[some (Value.num 5), some (Value.num 30)],
         [none, some (Value.num 2)],
         [some (Value.num 0), some (Value.num 1)]]⟩).cols =
      ["price", "area"] ∧
      (clean_data ⟨["price", "area"],
        [[some (Value.num 5), some (Value.num 30)],
         [none, some (Value.num 2)],
         [some (Value.num 0), some (Value.num 1)]]⟩).rows.Sublist
        [[some (Value.num 5), some (Value.num 30)],
         [none, some (Value.num 2)],
         [some (Value.num 0), some (Value.num 1)]] ∧
      ∀ r ∈ (clean_data ⟨["price", "area"],
        [[some (Value.num 5), some (Value.num 30)],
         [none, some (Value.num 2)],
         [some (Value.num 0), some (Value.num 1)]]⟩).rows,
        (∃ q : Rat, r.getD 0 none = some (Value.num q) ∧ 0 < q) ∧
        (∃ q : Rat, r.getD 1 none = some (Value.num q) ∧ 0 < q)) := by
  have hcells : ∀ r ∈ (⟨["price", "area"],
      [[some (Value.num 5), some (Value.num 30)],
       [none, some (Value.num 2)],
       [some (Value.num 0), some (Value.num 1)]]⟩ : DataFrame).rows,
      numOrNone (r.getD ((["price", "area"] : List String).indexOf "price") none) ∧
      numOrNone (r.getD ((["price", "area"] : List String).indexOf "area") none) := by
    intro r hr
    simp only [List.mem_cons, List.not_mem_nil, or_false] at hr
    rcases hr with rfl | rfl | rfl
    · exact ⟨Or.inr ⟨_, rfl⟩, Or.inr ⟨_, rfl⟩⟩
    · exact ⟨Or.inl rfl, Or.inr ⟨_, rfl⟩⟩
    · exact ⟨Or.inr ⟨_, rfl⟩, Or.inr ⟨_, rfl⟩⟩
  have h := clean_data_spec _ (by decide) (by decide) hcells
  exact ⟨⟨by decide, by decide⟩, h⟩

/-- Reading `getD` through `map`, inside bounds. -/
theorem getD_map_of_lt {α β : Type} (f : α → β) (l : List α) (i : Nat)
    (h : i < l.length) (d : β) : (l.map f).getD i d = f l[i] := by
  rw [List.getD_eq_getElem?_getD, List.getElem?_map, List.getElem?_eq_getElem h]
  rfl

/-- In-bounds `getD` is `getElem`. -/
theorem getD_of_lt {α : Type} (l : List α) (i : Nat) (h : i < l.length)
    (d : α) : l.getD i d = l[i] := by
  rw [List.getD_eq_getElem?_getD, List.getElem?_eq_getElem h]
  rfl

/-- Out-of-bounds `getD` returns the default. -/
theorem getD_of_ge {α : Type} (l : List α) (i : Nat) (h : l.length ≤ i)
    (d : α) : l.getD i d = d := by
  rw [List.getD_eq_getElem?_getD, List.getElem?_eq_none h]
  rfl

/-- A present cell witnesses that its indices are in bounds. -/
theorem cellAt_bounds (df : DataFrame) (i j : Nat) (v : Value)
    (h : cellAt df i j = some v) :
    ∃ hi : i < df.rows.length, j < df.rows[i].length := by
  have hi : i < df.rows.length := by
    by_contra hge
    push_neg at hge
    unfold cellAt at h
    rw [getD_of_ge _ _ hge] at h
    simp at h
  refine ⟨hi, ?_⟩
  unfold cellAt at h
  rw [getD_of_lt _ _ hi] at h
  by_contra hge
  push_neg at hge
  rw [getD_of_ge _ _ hge] at h
  simp at h

/-- Elements produced by the first-occurrence walk were not yet seen. -/
theorem dedup_go_not_seen {α : Type} [DecidableEq α] (l : List α) :
    ∀ seen y, y ∈ dedupKeepFirst.go seen l → y ∉ seen := by
  induction l with
  | nil => intro seen y hy; simp [dedupKeepFirst.go] at hy
  | cons x t ih =>
    intro seen y hy
    unfold dedupKeepFirst.go at hy
    by_cases hx : x ∈ seen
    · rw [if_pos hx] at hy
      exact ih seen y hy
    · rw [if_neg hx] at hy
      rcases List.mem_cons.mp hy with rfl | hy2
      · exact hx
      · intro hs
        exact ih (x :: seen) y hy2 (List.mem_cons_of_mem x hs)

/-- The first-occurrence walk yields no duplicates. -/
theorem dedup_go_nodup {α : Type} [DecidableEq α] (l : List α) :
    ∀ seen, (dedupKeepFirst.go seen l).Nodup := by
  induction l with
  | nil => intro seen; simp [dedupKeepFirst.go]
  | cons x t ih =>
    intro seen
    unfold dedupKeepFirst.go
    by_cases hx : x ∈ seen
    · rw [if_pos hx]
      exact ih seen
    · rw [if_neg hx]
      refine List.nodup_cons.mpr ⟨?_, ih (x :: seen)⟩
      intro hmem
      exact dedup_go_not_seen t (x :: seen) x hmem (List.mem_cons_self x seen)

/-- The function `dedupKeepFirst` yields no duplicates. -/
theorem dedupKeepFirst_nodup {α : Type} [DecidableEq α] (l : List α) :
    (dedupKeepFirst l).Nodup :=
  dedup_go_nodup l []

/-- The walk drops a tail made entirely of seen elements. -/
theorem dedup_go_all_seen {α : Type} [DecidableEq α] (l : List α) :
    ∀ seen, (∀ x ∈ l, x ∈ seen) → dedupKeepFirst.go seen l = [] := by
  induction l with
  | nil => intro seen _; rfl
  | cons x t ih =>
    intro seen h
    unfold dedupKeepFirst.go
    rw [if_pos (h x (by simp))]
    exact ih seen (fun y hy => h y (List.mem_cons_of_mem x hy))

/-- Appending elements already present changes nothing: the walk over a
duplicate-free block followed by elements drawn from it (or from the
seen set) returns exactly the block. -/
theorem dedup_go_append_absorb {α : Type} [DecidableEq α] (extra : List α) :
    ∀ l : List α, l.Nodup →
      ∀ seen, (∀ x ∈ l, x ∉ seen) → (∀ x ∈ extra, x ∈ l ∨ x ∈ seen) →
        dedupKeepFirst.go seen (l ++ extra) = l := by
  intro l
  induction l with
  | nil =>
    intro _ seen _ hex
    simp only [List.nil_append]
    exact dedup_go_all_seen extra seen
      (fun x hx => (hex x hx).resolve_left (by simp))
  | cons a t ih =>
    intro hn seen hfresh hex
    have ha : a ∉ seen := hfresh a (by simp)
    simp only [List.cons_append]
    unfold dedupKeepFirst.go
    rw [if_neg ha]
    congr 1
    refine ih (List.nodup_cons.mp hn).2 (a :: seen) ?_ ?_
    · intro x hx hmem
      rcases List.mem_cons.mp hmem with rfl | hs
      · exact (List.nodup_cons.mp hn).1 hx
      · exact hfresh x (List.mem_cons_of_mem a hx) hs
    · intro x hx
      rcases hex x hx with h | h
      · rcases List.mem_cons.mp h with rfl | h2
        · exact Or.inr (by simp)
        · exact Or.inl h2
      · exact Or.inr (List.mem_cons_of_mem a h)

/-- Deduplicating a duplicate-free list against itself is the identity. -/
theorem dedup_append_self {α : Type} [DecidableEq α] (l : List α)
    (hn : l.Nodup) : dedupKeepFirst (l ++ l) = l :=
  dedup_go_append_absorb l l hn [] (by simp) (fun x hx => Or.inl hx)

/-- The columns of a frame built from records carry no duplicates. -/
theorem pdDataFrame_cols_nodup (listings : List Record) :
    (pdDataFrame listings).cols.Nodup :=
  dedup_go_nodup _ []

/-- Every row of a frame built from records spans all columns. -/
theorem pdDataFrame_rows_length (listings : List Record) :
    ∀ r ∈ (pdDataFrame listings).rows,
      r.length = (pdDataFrame listings).cols.length := by
  intro r hr
  unfold pdDataFrame at hr ⊢
  obtain ⟨rec, _, rfl⟩ := List.mem_map.mp hr
  simp

/-- A frame built from records has one row per record. -/
theorem pdDataFrame_rows_count (listings : List Record) :
    (pdDataFrame listings).rows.length = listings.length := by
  unfold pdDataFrame
  simp

/-- Mapping a function that fixes every element is the identity. -/
theorem map_id_of_forall {α : Type} (l : List α) (f : α → α)
    (h : ∀ x ∈ l, f x = x) : l.map f = l := by
  induction l with
  | nil => rfl
  | cons x t ih =>
    simp only [List.map_cons, h x (by simp)]
    rw [ih (fun y hy => h y (List.mem_cons_of_mem x hy))]

/-- Reindexing a full-width row onto its own duplicate-free columns is
the identity. -/
theorem reindexRow_id (cs : List String) (r : List (Option Value))
    (hn : cs.Nodup) (hr : r.length = cs.length) : reindexRow cs cs r = r := by
  apply List.ext_getElem
  · simp [reindexRow, hr]
  · intro j h1 h2
    have hj : j < cs.length := by
      simpa [reindexRow] using h1
    unfold reindexRow
    rw [List.getElem_map]
    have hmem : cs[j] ∈ cs := List.getElem_mem hj
    have hc : cs.contains cs[j] = true := by
      simpa using hmem
    rw [if_pos hc, List.indexOf_getElem hn j hj, getD_of_lt _ _ (by omega)]

/-- Concatenation of two frames over identical duplicate-free columns just
appends the rows. -/
theorem pdConcat_same_cols (df1 df2 : DataFrame) (h : df2.cols = df1.cols)
    (hn : df1.cols.Nodup)
    (h1 : ∀ r ∈ df1.rows, r.length = df1.cols.length)
    (h2 : ∀ r ∈ df2.rows, r.length = df1.cols.length) :
    pdConcat df1 df2 = ⟨df1.cols, df1.rows ++ df2.rows⟩ := by
  unfold pdConcat
  rw [h, dedup_append_self _ hn]
  refine congrArg (fun rs => DataFrame.mk df1.cols rs) ?_
  rw [map_id_of_forall _ _ (fun r hr => reindexRow_id _ _ hn (h1 r hr)),
    map_id_of_forall _ _ (fun r hr => reindexRow_id _ _ hn (h2 r hr))]

/-- Cell access into the frame produced by `readCsv`. -/
theorem cellAt_readGrid (cols : List String) (src : List (List String))
    (i j : Nat) (hi : i < src.length) (hj : j < cols.length) :
    cellAt ⟨cols, src.map (fun r => (List.range cols.length).map
        (fun j2 => readCell (colNumeric src j2) (r.getD j2 "")))⟩ i j =
      readCell (colNumeric src j) (src[i].getD j "") := by
  unfold cellAt
  rw [getD_map_of_lt _ _ _ hi]
  try simp only []
  rw [getD_map_of_lt _ _ _ (by simpa using hj)]
  try simp only []
  rw [List.getElem_range]

/-- Writing then reading a frame whose rows span at least two columns
succeeds, keeps the column list and the row count, and returns every
text cell unchanged provided its text is not a missing-value sentinel
and does not parse as a number. -/
theorem readCsv_writeCsv (df : DataFrame)
    (hlen : ∀ r ∈ df.rows, r.length = df.cols.length)
    (hcols : 2 ≤ df.cols.length) :
    ∃ df2, readCsv (writeCsv df) = some df2 ∧ df2.cols = df.cols ∧
      df2.rows.length = df.rows.length ∧
      (∀ r ∈ df2.rows, r.length = df.cols.length) ∧
      ∀ i j s, cellAt df i j = some (Value.str s) →
        naStrings.contains s = false → isNumericText s.toList = false →
        cellAt df2 i j = some (Value.str s) := by
  have hW : (writeCsv df).rows = df.rows.map (fun r => r.map renderCell) := rfl
  have hkeep : (writeCsv df).rows.filter (fun r => !blankRow r) =
      (writeCsv df).rows := by
    apply List.filter_eq_self.mpr
    intro r hr
    rw [hW] at hr
    obtain ⟨r0, hr0, rfl⟩ := List.mem_map.mp hr
    have hlr : (r0.map renderCell).length = df.cols.length := by
      simp [hlen r0 hr0]
    have h1 : (r0.map renderCell).isEmpty = false :=
      isEmpty_false_of_ne_nil _ (by
        intro hnil
        rw [hnil] at hlr
        simp at hlr
        omega)
    have h2 : r0.map renderCell ≠ [""] := by
      intro heq
      rw [heq] at hlr
      simp at hlr
      omega
    simp [blankRow, h1, h2]
  have hne : ((writeCsv df).header.isEmpty = true) → False := by
    intro habs
    have hh : (writeCsv df).header = df.cols := rfl
    rw [hh, List.isEmpty_iff] at habs
    rw [habs] at hcols
    simp at hcols
  refine ⟨⟨df.cols, (writeCsv df).rows.map (fun r =>
      (List.range df.cols.length).map (fun j2 =>
        readCell (colNumeric (writeCsv df).rows j2) (r.getD j2 "")))⟩,
    ?_, rfl, ?_, ?_, ?_⟩
  · unfold readCsv
    rw [if_neg hne, hkeep]
    rfl
  · simp [hW]
  · intro r hr
    obtain ⟨r0, _, rfl⟩ := List.mem_map.mp hr
    simp
  · intro i j s hcell hna hnum
    obtain ⟨hi, hj⟩ := cellAt_bounds df i j _ hcell
    have hjm : j < df.cols.length := by
      rw [← hlen _ (List.getElem_mem hi)]
      exact hj
    have hcellg : df.rows[i][j] = some (Value.str s) := by
      unfold cellAt at hcell
      rw [getD_of_lt _ _ hi, getD_of_lt _ _ hj] at hcell
      exact hcell
    have hiW : i < (writeCsv df).rows.length := by
      rw [hW]
      simpa using hi
    have hraw : ((writeCsv df).rows[i]).getD j "" = s := by
      have hWi : ((writeCsv df).rows[i]) = df.rows[i].map renderCell := by
        simp [hW]
      rw [hWi, getD_map_of_lt _ _ _ hj, hcellg]
      rfl
    have hcn : colNumeric (writeCsv df).rows j = false := by
      by_contra hcn2
      rw [Bool.not_eq_false] at hcn2
      unfold colNumeric at hcn2
      have hall := List.all_eq_true.mp hcn2 _ (List.getElem_mem hiW)
      simp only [] at hall
      rw [hraw, hna, hnum] at hall
      simp at hall
    rw [cellAt_readGrid df.cols (writeCsv df).rows i j hiW hjm, hraw, hcn]
    have hna2 : s ∉ naStrings := by simpa using hna
    simp [readCell, hna2]

/-- C8 counterexample: the single-record dataset whose title is the text
NA persists and reloads with the title cell read back as missing — the
populated text field's content is not preserved by the round trip, while
the row count is. -/
theorem roundtrip_counterexample :
    cellAt (pdDataFrame [[("title", Value.str "NA"),
        ("price", Value.num 5)]]) 0 0 = some (Value.str "NA") ∧
    (readCsv (writeCsv (pdDataFrame [[("title", Value.str "NA"),
        ("price", Value.num 5)]]))).map (fun d => d.rows.length) =
      some 1 ∧
    (readCsv (writeCsv (pdDataFrame [[("title", Value.str "NA"),
        ("price", Value.num 5)]]))).map (fun d => cellAt d 0 0) =
      some none ∧
    some (Value.str "NA") ≠ (none : Option Value) := by
  refine ⟨by rfl, by rfl, by rfl, by decide⟩

/-- C8 amended: persisting a non-empty dataset spanning at least two
columns and reloading it preserves the row count, and preserves the
content of every populated text field whose text is neither one of the
reader's missing-value sentinels nor parseable as a number (numeric type
widening aside, a sentinel-valued or number-shaped text cell is the one
thing the reload can alter). -/
theorem roundtrip_amended (listings : List Record)
    (_hne : listings ≠ [])
    (hcols : 2 ≤ (pdDataFrame listings).cols.length) :
    ∃ df2, readCsv (writeCsv (pdDataFrame listings)) = some df2 ∧
      df2.cols = (pdDataFrame listings).cols ∧
      df2.rows.length = listings.length ∧
      ∀ i j s, cellAt (pdDataFrame listings) i j = some (Value.str s) →
        naStrings.contains s = false → isNumericText s.toList = false →
        cellAt df2 i j = some (Value.str s) := by
  obtain ⟨df2, h1, h2, h3, _h4, h5⟩ :=
    readCsv_writeCsv (pdDataFrame listings)
      (pdDataFrame_rows_length listings) hcols
  exact ⟨df2, h1, h2, by rw [h3, pdDataFrame_rows_count], h5⟩

/-- C8 amended, witness on a one-record dataset. -/
theorem roundtrip_amended_witness :
    (([[("title", Value.str "某公寓"), ("price", Value.num 5)]] :
        List Record) ≠ [] ∧
      2 ≤ (pdDataFrame [[("title", Value.str "某公寓"),
        ("price", Value.num 5)]]).cols.length) ∧
    (∃ df2, readCsv (writeCsv (pdDataFrame [[("title", Value.str "某公寓"),
        ("price", Value.num 5)]])) = some df2 ∧
      df2.cols = (pdDataFrame [[("title", Value.str "某公寓"),
        ("price", Value.num 5)]]).cols ∧
      df2.rows.length =
        ([[("title", Value.str "某公寓"),
          ("price", Value.num 5)]] : List Record).length ∧
      ∀ i j s, cellAt (pdDataFrame [[("title", Value.str "某公寓"),
          ("price", Value.num 5)]]) i j = some (Value.str s) →
        naStrings.contains s = false → isNumericText s.toList = false →
        cellAt df2 i j = some (Value.str s)) :=
  ⟨⟨by decide, by decide⟩, roundtrip_amended _ (by decide) (by decide)⟩

/-- Reading `getD` on an append, inside the first block. -/
theorem getD_append_of_lt {α : Type} (l1 l2 : List α) (i : Nat)
    (h : i < l1.length) (d : α) : (l1 ++ l2).getD i d = l1.getD i d := by
  rw [List.getD_eq_getElem?_getD, List.getElem?_append_left h,
    ← List.getD_eq_getElem?_getD]

/-- Reading `getD` on an append, offset into the second block. -/
theorem getD_append_add {α : Type} (l1 l2 : List α) (i : Nat) (d : α) :
    (l1 ++ l2).getD (l1.length + i) d = l2.getD i d := by
  rw [List.getD_eq_getElem?_getD, List.getElem?_append_right (by omega),
    ← List.getD_eq_getElem?_getD]
  congr 1
  omega

/-- C2 counterexample: dataset A with title text NA is persisted, the
file loads successfully, and dataset B is appended — but in the written
result A's row is mutated: its title cell, persisted as NA, comes back
as an empty (missing) cell after the append round trip. -/
theorem append_mutates_counterexample :
    ((save_to_csv [[("title", Value.str "NA"), ("price", Value.num 5)]]
        false ⟨none, false⟩).2.file.map
      (fun f => (f.rows.getD 0 []).getD 0 "")) = some "NA" ∧
    ((save_to_csv [[("title", Value.str "NA"), ("price", Value.num 5)]]
        false ⟨none, false⟩).2.file.map
      (fun f => (readCsv f).isSome)) = some true ∧
    ((save_to_csv [[("title", Value.str "b"), ("price", Value.num 6)]] true
        (save_to_csv [[("title", Value.str "NA"), ("price", Value.num 5)]]
          false ⟨none, false⟩).2).2.file.map
      (fun f => f.rows.length)) = some 2 ∧
    ((save_to_csv [[("title", Value.str "b"), ("price", Value.num 6)]] true
        (save_to_csv [[("title", Value.str "NA"), ("price", Value.num 5)]]
          false ⟨none, false⟩).2).2.file.map
      (fun f => (f.rows.getD 0 []).getD 0 "")) = some "" ∧
    ((save_to_csv [[("title", Value.str "b"), ("price", Value.num 6)]] true
        (save_to_csv [[("title", Value.str "NA"), ("price", Value.num 5)]]
          false ⟨none, false⟩).2).2.file.map
      (fun f => (f.rows.getD 1 []).getD 0 "")) = some "b" ∧
    ("" : String) ≠ "NA" := by
  refine ⟨by rfl, by rfl, by rfl, by rfl, by rfl, by decide⟩

/-- C2 amended: writing dataset A to an absent destination and then
appending dataset B (same columns, at least two of them) yields a file
with `len(A) + len(B)` rows; B's freshly rendered rows follow A's
reloaded rows; and A's text cells are carried over unchanged provided
their text avoids the CSV reader's missing-value sentinels and does not
parse as a number — A's rows are otherwise subject to the append's
write-read round trip of the existing file. -/
theorem append_preserves_amended (A B : List Record) (d a1 : Bool)
    (hA : A ≠ []) (hB : B ≠ [])
    (hcols : 2 ≤ (pdDataFrame A).cols.length)
    (hAB : (pdDataFrame B).cols = (pdDataFrame A).cols) :
    ∃ out : CsvFile,
      (save_to_csv B true (save_to_csv A a1 ⟨none, d⟩).2).2.file = some out ∧
      out.rows.length = A.length + B.length ∧
      (∀ i j s, cellAt (pdDataFrame A) i j = some (Value.str s) →
        naStrings.contains s = false → isNumericText s.toList = false →
        (out.rows.getD i []).getD j "" = s) ∧
      (∀ i : Nat, out.rows.getD (A.length + i) [] =
        (writeCsv (pdDataFrame B)).rows.getD i []) := by
  have hAne : A.isEmpty = false := isEmpty_false_of_ne_nil _ hA
  have hBne : B.isEmpty = false := isEmpty_false_of_ne_nil _ hB
  have hfs1 : (save_to_csv A a1 ⟨none, d⟩).2 =
      ⟨some (writeCsv (pdDataFrame A)), true⟩ := by
    cases a1 <;> simp [save_to_csv, hAne]
  obtain ⟨ex, hread, hexcols, hexlen, hexrowlen, hexcell⟩ :=
    readCsv_writeCsv (pdDataFrame A) (pdDataFrame_rows_length A) hcols
  have hsave2 : (save_to_csv B true (save_to_csv A a1 ⟨none, d⟩).2).2 =
      ⟨some (writeCsv (pdConcat ex (pdDataFrame B))), true⟩ := by
    rw [hfs1]
    simp [save_to_csv, hBne, hread]
  have hn : ex.cols.Nodup := by
    rw [hexcols]
    exact pdDataFrame_cols_nodup A
  have hl1 : ∀ r ∈ ex.rows, r.length = ex.cols.length := by
    intro r hr
    rw [hexcols]
    exact hexrowlen r hr
  have hl2 : ∀ r ∈ (pdDataFrame B).rows, r.length = ex.cols.length := by
    intro r hr
    rw [hexcols, ← hAB]
    exact pdDataFrame_rows_length B r hr
  have hcc : (pdDataFrame B).cols = ex.cols := by
    rw [hexcols, hAB]
  have hconcat : pdConcat ex (pdDataFrame B) =
      ⟨ex.cols, ex.rows ++ (pdDataFrame B).rows⟩ :=
    pdConcat_same_cols ex (pdDataFrame B) hcc hn hl1 hl2
  have hrows : (writeCsv (pdConcat ex (pdDataFrame B))).rows =
      ex.rows.map (fun r => r.map renderCell) ++
        (pdDataFrame B).rows.map (fun r => r.map renderCell) := by
    rw [hconcat]
    unfold writeCsv
    simp [List.map_append]
  have hexA : ex.rows.length = A.length := by
    rw [hexlen, pdDataFrame_rows_count]
  refine ⟨writeCsv (pdConcat ex (pdDataFrame B)), ?_, ?_, ?_, ?_⟩
  · rw [hsave2]
  · rw [hrows]
    simp [hexA, pdDataFrame_rows_count]
  · intro i j s hcell hna hnum
    have hcell2 := hexcell i j s hcell hna hnum
    obtain ⟨hi, hj⟩ := cellAt_bounds (pdDataFrame A) i j _ hcell
    have hiex : i < ex.rows.length := by
      rw [hexlen]
      exact hi
    have hjex : j < ex.rows[i].length := by
      rw [hexrowlen _ (List.getElem_mem hiex),
        ← pdDataFrame_rows_length A _ (List.getElem_mem hi)]
      exact hj
    have hcellg : ex.rows[i][j] = some (Value.str s) := by
      unfold cellAt at hcell2
      rw [getD_of_lt _ _ hiex, getD_of_lt _ _ hjex] at hcell2
      exact hcell2
    rw [hrows, getD_append_of_lt _ _ _ (by simpa using hiex),
      getD_map_of_lt _ _ _ hiex]
    try simp only []
    rw [getD_map_of_lt _ _ _ hjex, hcellg]
    rfl
  · intro i
    rw [hrows]
    have hlenmap : (ex.rows.map (fun r => r.map renderCell)).length =
        A.length := by
      simpa using hexA
    calc (ex.rows.map (fun r => r.map renderCell) ++
            (pdDataFrame B).rows.map (fun r => r.map renderCell)).getD
          (A.length + i) []
        = (ex.rows.map (fun r => r.map renderCell) ++
            (pdDataFrame B).rows.map (fun r => r.map renderCell)).getD
          ((ex.rows.map (fun r => r.map renderCell)).length + i) [] := by
          rw [hlenmap]
      _ = ((pdDataFrame B).rows.map (fun r => r.map renderCell)).getD i [] :=
          getD_append_add _ _ i []
      _ = (writeCsv (pdDataFrame B)).rows.getD i [] := rfl

/-- C2 amended, witness on two one-record datasets with the same
columns. -/
theorem append_preserves_amended_witness :
    (([[("title", Value.str "甲"), ("price", Value.num 5)]] :
        List Record) ≠ [] ∧
      ([[("title", Value.str "乙"), ("price", Value.num 6)]] :
        List Record) ≠ [] ∧
      2 ≤ (pdDataFrame [[("title", Value.str "甲"),
        ("price", Value.num 5)]]).cols.length ∧
      (pdDataFrame [[("title", Value.str "乙"),
        ("price", Value.num 6)]]).cols =
        (pdDataFrame [[("title", Value.str "甲"),
          ("price", Value.num 5)]]).cols) ∧
    (∃ out : CsvFile,
      (save_to_csv [[("title", Value.str "乙"), ("price", Value.num 6)]]
        true
        (save_to_csv [[("title", Value.str "甲"), ("price", Value.num 5)]]
          false ⟨none, false⟩).2).2.file = some out ∧
      out.rows.length =
        ([[("title", Value.str "甲"), ("price", Value.num 5)]] :
          List Record).length +
        ([[("title", Value.str "乙"), ("price", Value.num 6)]] :
          List Record).length ∧
      (∀ i j s, cellAt (pdDataFrame [[("title", Value.str "甲"),
          ("price", Value.num 5)]]) i j = some (Value.str s) →
        naStrings.contains s = false → isNumericText s.toList = false →
        (out.rows.getD i []).getD j "" = s) ∧
      (∀ i : Nat, out.rows.getD
          (([[("title", Value.str "甲"), ("price", Value.num 5)]] :
            List Record).length + i) [] =
        (writeCsv (pdDataFrame [[("title", Value.str "乙"),
          ("price", Value.num 6)]])).rows.getD i [])) :=
  ⟨⟨by decide, by decide, by decide, by decide⟩,
    append_preserves_amended _ _ false false (by decide) (by decide)
      (by decide) (by decide)⟩
